import Mathlib

/-!
Verification of the Minecraft player-lookup Discord bot (`src/bot.py`).

Shallow embedding conventions:
* Python strings are lists of Unicode code points (`Str := List Nat`);
  `str.lower()` is modelled on its ASCII fragment (code points 65–90 map
  to 97–122), which covers every string the claims exercise.
* Python's `None` and JSON `null` are the same value, `JSON.null`.
* JSON/Python values are the inductive `JSON`; dicts are association
  lists with distinct keys, in insertion order.
* Fallible Python code is `Except PyErr _`.  `aiohttp` request failures
  (network error, timeout, non-2xx status via `raise_for_status`, body
  parse failure) reaching `check_server` are all subclasses of the caught
  `(aiohttp.ClientError, asyncio.TimeoutError)`, so a probe is modelled
  as an oracle `ServerTarget → Option JSON` where `none` means any such
  caught failure and `some payload` means a parsed successful response.
* The `asyncio.Semaphore`/`gather` concurrency of `find_player_servers`
  is modelled twice: a sequential functional model (the match set, in
  configured order) and a small-step transition system (`CoordStep`) for
  the in-flight bound and the all-complete barrier.
-/

/-- A Python string: its list of Unicode code points. -/
abbrev Str := List Nat

/-- Code points of a Lean string literal, for concrete inputs. -/
def strLit (s : String) : Str := s.data.map Char.toNat

/-- `str.lower()` on one code point (ASCII fragment): `A`–`Z` shift by 32. -/
def pyLowerCp (c : Nat) : Nat := if 65 ≤ c ∧ c ≤ 90 then c + 32 else c

/-- `str.lower()`: lowercase every code point. -/
def pyLower (s : Str) : Str := s.map pyLowerCp

/-- Python/JSON values as they appear after `json` parsing: `None`,
booleans, integers, strings, lists and dicts. -/
inductive JSON where
  | null : JSON
  | bool (b : Bool) : JSON
  | num (n : Int) : JSON
  | str (s : Str) : JSON
  | arr (elems : List JSON) : JSON
  | obj (fields : List (Str × JSON)) : JSON

/-- Python truthiness (`bool(v)`) of a JSON value. -/
def truthy : JSON → Bool
  | .null => false
  | .bool b => b
  | .num n => n != 0
  | .str s => !s.isEmpty
  | .arr xs => !xs.isEmpty
  | .obj fs => !fs.isEmpty

/-- Value of a key in a dict (association list with distinct keys). -/
def lookupField : List (Str × JSON) → Str → Option JSON
  | [], _ => none
  | (k, v) :: rest, key => if k = key then some v else lookupField rest key

/-- Raised Python exceptions that the embedding distinguishes. -/
inductive PyErr where
  | attributeError : PyErr
  | typeError : PyErr
  | valueError : PyErr
  | httpError : PyErr

/-- `v.get(key, default)`: dict lookup with default; `AttributeError`
when `v` is not a dict. -/
def dict_get (v : JSON) (key : Str) (default : JSON) : Except PyErr JSON :=
  match v with
  | .obj fs => .ok ((lookupField fs key).getD default)
  | _ => .error .attributeError

/-- Python `a or b`. -/
def pyOr (a b : JSON) : JSON := if truthy a then a else b

/-- Python `for x in v`: lists yield elements, strings yield 1-character
strings, dicts yield their keys; other values raise `TypeError`. -/
def pyIter : JSON → Except PyErr (List JSON)
  | .arr xs => .ok xs
  | .str s => .ok (s.map (fun c => .str [c]))
  | .obj fs => .ok (fs.map (fun f => .str f.1))
  | _ => .error .typeError

def kOnline : Str := strLit "online"
def kPlayers : Str := strLit "players"
def kList : Str := strLit "list"
def kUuid : Str := strLit "uuid"
def kName : Str := strLit "name"
def kId : Str := strLit "id"
def kServers : Str := strLit "servers"
def kDiscordToken : Str := strLit "discord_token"
def kMaxConcurrency : Str := strLit "max_concurrency"
def kRequestTimeout : Str := strLit "request_timeout_seconds"

/-- `normalize_uuid` (bot.py:62–63): `value.replace("-", "").lower()`.
Code point 45 is the hyphen. -/
def normalize_uuid (value : Str) : Str := pyLower (value.filter (· != 45))

/-- Consume exactly `n` characters of class `[0-9a-fA-F]` and return the
rest of the string, if possible. -/
def isHexCp (c : Nat) : Bool :=
  (48 ≤ c && c ≤ 57) || (97 ≤ c && c ≤ 102) || (65 ≤ c && c ≤ 70)

def matchHexRun : Nat → Str → Option Str
  | 0, s => some s
  | _ + 1, [] => none
  | n + 1, c :: rest => if isHexCp c then matchHexRun n rest else none

/-- Consume one hyphen. -/
def matchDash : Str → Option Str
  | 45 :: rest => some rest
  | _ => none

/-- First alternative of `UUID_REGEX` (bot.py:14–17): `[0-9a-fA-F]{32}`
consuming the whole string. -/
def hex32Branch (s : Str) : Bool := decide (matchHexRun 32 s = some [])

/-- Second alternative of `UUID_REGEX`: hex runs of lengths
8-4-4-4-12 separated by hyphens, consuming the whole string. -/
def hyphBranch (s : Str) : Bool :=
  decide ((((((((((matchHexRun 8 s).bind matchDash).bind
    (matchHexRun 4)).bind matchDash).bind
    (matchHexRun 4)).bind matchDash).bind
    (matchHexRun 4)).bind matchDash).bind
    (matchHexRun 12)) = some [])

/-- Either alternative, up to the end of the string: the shape the spec
describes (32 hex characters, plain or hyphenated 8-4-4-4-12). -/
def uuidCore (s : Str) : Bool := hex32Branch s || hyphBranch s

/-- `UUID_REGEX.match(s)` as a Boolean.  Python's `$` matches at the end
of the string or just before one trailing newline (code point 10), so
the regex also accepts `core ++ "\n"`. -/
def UUID_REGEX_match (s : Str) : Bool :=
  uuidCore s ||
    (match s.getLast? with
     | some c => if c = 10 then uuidCore s.dropLast else false
     | none => false)

/-- `ServerTarget` (bot.py:20–23).  The dataclass annotations say `str`
but are unenforced; `load_config` stores whatever truthy values the
config file supplies, so the fields are JSON values. -/
structure ServerTarget where
  name : JSON
  address : JSON

/-- `BotConfig` (bot.py:26–31).  `token` and `request_timeout_seconds`
are stored unvalidated; `max_concurrency` is coerced to an integer ≥ 1
(a Python `bool` value is an `int` whose coerced value is 1 either way,
since `True < 1` is false and `int(True) = 1`, `False < 1` coerces to 1). -/
structure BotConfig where
  token : JSON
  servers : List ServerTarget
  request_timeout_seconds : JSON
  max_concurrency : Int

/-- The `servers` list comprehension of `load_config` (bot.py:43–47):
keep dict entries whose `name` and `address` are present and truthy. -/
def collectServers : List JSON → List ServerTarget
  | [] => []
  | .obj fs :: rest =>
    let n := (lookupField fs kName).getD .null
    let a := (lookupField fs (strLit "address")).getD .null
    if truthy n && truthy a then ⟨n, a⟩ :: collectServers rest
    else collectServers rest
  | _ :: rest => collectServers rest

/-- `load_config` (bot.py:34–59), from the parsed JSON of the config
file (file existence and JSON decoding are outside the model).  Order
follows the source: servers are parsed before the token check. -/
def load_config (raw : JSON) : Except PyErr BotConfig :=
  match dict_get raw kServers (.arr []) with
  | .error e => .error e
  | .ok servers_raw =>
    match pyIter servers_raw with
    | .error e => .error e
    | .ok sitems =>
      let servers := collectServers sitems
      match dict_get raw kDiscordToken .null with
      | .error e => .error e
      | .ok token =>
        if truthy token then
          match dict_get raw kMaxConcurrency (.num 8),
                dict_get raw kRequestTimeout (.num 10) with
          | .ok mc, .ok rts =>
            .ok ⟨token, servers, rts,
                 match mc with
                 | .num n => if n < 1 then 1 else n
                 | _ => 1⟩
          | .error e, _ => .error e
          | _, .error e => .error e
        else .error .valueError

/-- An HTTP response as `aiohttp` presents it: status code and parsed
JSON body. -/
structure HttpResponse where
  status : Nat
  body : JSON

/-- `response.raise_for_status()`: raises for status ≥ 400. -/
def raise_for_status (r : HttpResponse) : Except PyErr Unit :=
  if 400 ≤ r.status then .error .httpError else .ok ()

/-- `fetch_uuid_for_name` (bot.py:72–81) applied to the directory
service's response: HTTP 204 yields `None`; otherwise non-success
raises, and a success returns `data.get("id")` (`None` if absent). -/
def fetch_uuid_for_name (r : HttpResponse) : Except PyErr JSON :=
  if r.status = 204 then .ok .null
  else
    match raise_for_status r with
    | .error e => .error e
    | .ok _ => dict_get r.body kId .null

/-- The `list` loop of `extract_players` (bot.py:94–100): dict entries
contribute their truthy `name` value, string entries contribute
themselves, others are skipped. -/
def collectNames : List JSON → List JSON
  | [] => []
  | .obj fs :: rest =>
    let n := (lookupField fs kName).getD .null
    if truthy n then n :: collectNames rest else collectNames rest
  | .str s :: rest => .str s :: collectNames rest
  | _ :: rest => collectNames rest

/-- The `uuid` loop of `extract_players` (bot.py:101–108): dict entries
contribute `entry.get("uuid") or ""` when truthy, string entries
contribute themselves, others are skipped. -/
def collectUuids : List JSON → List JSON
  | [] => []
  | .obj fs :: rest =>
    let r := pyOr ((lookupField fs kUuid).getD .null) (.str [])
    if truthy r then r :: collectUuids rest else collectUuids rest
  | .str s :: rest => .str s :: collectUuids rest
  | _ :: rest => collectUuids rest

/-- `extract_players` (bot.py:91–109). -/
def extract_players (payload : JSON) : Except PyErr (List JSON × List JSON) :=
  match dict_get payload kPlayers (.obj []) with
  | .error e => .error e
  | .ok players =>
    match dict_get players kList .null with
    | .error e => .error e
    | .ok lraw =>
      match pyIter (pyOr lraw (.arr [])) with
      | .error e => .error e
      | .ok litems =>
        let names := collectNames litems
        match dict_get players kUuid (.arr []) with
        | .error e => .error e
        | .ok uraw =>
          match pyIter (pyOr uraw (.arr [])) with
          | .error e => .error e
          | .ok uitems => .ok (names, collectUuids uitems)

/-- One of the set comprehensions of `check_server` (bot.py:131, 136):
apply a string function to every element, raising `AttributeError` on a
non-string element. -/
def pyStrSet (f : Str → Str) : List JSON → Except PyErr (List Str)
  | [] => .ok []
  | .str s :: rest =>
    match pyStrSet f rest with
    | .error e => .error e
    | .ok out => .ok (f s :: out)
  | _ :: _ => .error .attributeError

/-- `check_server` (bot.py:122–137) for one target, with the roster
request abstracted as the probe oracle; returns whether the target was
appended to `matches`.  A `none` probe is the caught
`(aiohttp.ClientError, asyncio.TimeoutError)` branch. -/
def check_server (probe : ServerTarget → Option JSON) (player_name : Str)
    (player_uuid : JSON) (target : ServerTarget) : Except PyErr Bool :=
  match probe target with
  | none => .ok false
  | some payload =>
    match dict_get payload kOnline .null with
    | .error e => .error e
    | .ok online =>
      if truthy online then
        match extract_players payload with
        | .error e => .error e
        | .ok (names, uuids) =>
          match pyStrSet pyLower names with
          | .error e => .error e
          | .ok lnames =>
            if pyLower player_name ∈ lnames then .ok true
            else if truthy player_uuid then
              match player_uuid with
              | .str s =>
                match pyStrSet normalize_uuid uuids with
                | .error e => .error e
                | .ok nuuids => .ok (decide (normalize_uuid s ∈ nuuids))
              | _ => .error .attributeError
            else .ok false
      else .ok false

/-- `find_player_servers` (bot.py:112–140): the match set, functionally.
Every target is checked and the matches collected; the model fixes the
configured order (the source appends in completion order, which only
permutes the list).  The semaphore bound, which does not affect the
match set, is modelled by `CoordStep` below. -/
def find_player_servers (probe : ServerTarget → Option JSON)
    (targets : List ServerTarget) (player_name : Str) (player_uuid : JSON) :
    Except PyErr (List ServerTarget) :=
  match targets with
  | [] => .ok []
  | t :: ts =>
    match check_server probe player_name player_uuid t with
    | .error e => .error e
    | .ok b =>
      match find_player_servers probe ts player_name player_uuid with
      | .error e => .error e
      | .ok rest => .ok (if b then t :: rest else rest)

/-- The identifier-resolution fragment of the `procurar` command
(bot.py:195–207), instrumented with the number of directory lookups
performed.  `ok none` is the "player not found" early return;
`ok (some (name, uuid))` carries `player_name` and `player_uuid` exactly
as the source leaves them (the raw input in the direct-identifier
branch). -/
def procurar_resolve (dirResp : HttpResponse) (jogador : Str) :
    Except PyErr (Option (Str × JSON)) × Nat :=
  if UUID_REGEX_match jogador then (.ok (some (jogador, .str jogador)), 0)
  else
    match fetch_uuid_for_name dirResp with
    | .error e => (.error e, 1)
    | .ok .null => (.ok none, 1)
    | .ok v => (.ok (some (jogador, v)), 1)

/-- Outcomes the `procurar` command reports to the user. -/
inductive ProcurarOutcome where
  | noServers : ProcurarOutcome
  | notFound : ProcurarOutcome
  | noMatch : ProcurarOutcome
  | found (ms : List ServerTarget) : ProcurarOutcome

/-- The data-level pipeline of `procurar` (bot.py:179–235): empty server
check, resolution, fan-out, and the empty-match check. -/
def procurar_core (servers : List ServerTarget) (dirResp : HttpResponse)
    (probe : ServerTarget → Option JSON) (jogador : Str) :
    Except PyErr ProcurarOutcome :=
  if servers.isEmpty then .ok .noServers
  else
    match (procurar_resolve dirResp jogador).1 with
    | .error e => .error e
    | .ok none => .ok .notFound
    | .ok (some (pname, puuid)) =>
      match find_player_servers probe servers pname puuid with
      | .error e => .error e
      | .ok [] => .ok .noMatch
      | .ok ms => .ok (.found ms)

/-! ## Small-step model of the semaphore-bounded gather

`find_player_servers` wraps each `check_server` body in
`async with semaphore` and awaits them all with `asyncio.gather`.  One
task per target; a task acquires a semaphore slot (possible only while
fewer than `max_concurrency` tasks hold one), later finishes and
releases it, and the coordinator returns only once every task is done. -/

/-- Lifecycle of one probe task. -/
inductive ProbePhase where
  | pending : ProbePhase
  | running : ProbePhase
  | done : ProbePhase
deriving DecidableEq

/-- State of the gather: one phase per target, plus whether
`find_player_servers` has returned. -/
structure CoordState where
  tasks : List ProbePhase
  returned : Bool

/-- Number of probes currently in flight (holding a semaphore slot). -/
def runningCount (s : CoordState) : Nat :=
  s.tasks.countP (fun p => decide (p = .running))

/-- All probe tasks have completed. -/
def allDone (s : CoordState) : Prop := ∀ p ∈ s.tasks, p = ProbePhase.done

/-- Interleaving steps: `acquire` is the semaphore acquisition (enabled
only below the ceiling), `finish` is a probe completing and releasing
its slot, `ret` is `gather` returning after the all-complete barrier. -/
inductive CoordStep (maxc : Nat) : CoordState → CoordState → Prop
  | acquire (s : CoordState) (i : Nat) :
      s.tasks.get? i = some .pending → runningCount s < maxc →
      s.returned = false → CoordStep maxc s ⟨s.tasks.set i .running, false⟩
  | finish (s : CoordState) (i : Nat) :
      s.tasks.get? i = some .running → s.returned = false →
      CoordStep maxc s ⟨s.tasks.set i .done, false⟩
  | ret (s : CoordState) :
      s.returned = false → allDone s → CoordStep maxc s ⟨s.tasks, true⟩

/-- States reachable from `init` by `CoordStep`. -/
inductive CoordReach (maxc : Nat) (init : CoordState) : CoordState → Prop
  | refl : CoordReach maxc init init
  | step {s t : CoordState} : CoordReach maxc init s →
      CoordStep maxc s t → CoordReach maxc init t

/-- Initial state of the fan-out: one pending task per target. -/
def initFanOut (targets : List ServerTarget) : CoordState :=
  ⟨targets.map (fun _ => ProbePhase.pending), false⟩

/-! ## Claim-side predicates -/

/-- Clause (a) of the match predicate: the target player's name,
lowercased, equals the lowercase of some extracted name entry. -/
def nameMatchSpec (player_name : Str) (names : List JSON) : Prop :=
  ∃ s, JSON.str s ∈ names ∧ pyLower s = pyLower player_name

/-- Clause (b): the canonical identifier is a non-empty string and,
after stripping hyphens and lowercasing both sides, equals some
extracted identifier entry. -/
def uuidMatchSpec (player_uuid : JSON) (uuids : List JSON) : Prop :=
  ∃ s, player_uuid = JSON.str s ∧ s ≠ [] ∧
    ∃ u, JSON.str u ∈ uuids ∧ normalize_uuid u = normalize_uuid s

/-- The whole per-endpoint match predicate of claim C1: online flag
truthy, and a name or identifier match against the extracted roster. -/
def MatchSpec (player_name : Str) (player_uuid : JSON) (payload : JSON) : Prop :=
  (∃ ov, dict_get payload kOnline .null = .ok ov ∧ truthy ov = true) ∧
  ∃ ns us, extract_players payload = .ok (ns, us) ∧
    (nameMatchSpec player_name ns ∨ uuidMatchSpec player_uuid us)

/-- A roster entry of the shape `extract_players` handles without later
type errors: if it is a dict, its `key` value is a string whenever
truthy. -/
def EntryOk (key : Str) : JSON → Prop
  | .obj fs => ∀ v, lookupField fs key = some v → truthy v = true → ∃ s, v = JSON.str s
  | _ => True

/-- A status payload of the shape the server-status API documents: an
object whose `players` field, when present, is an object whose truthy
`list`/`uuid` fields are arrays of tolerated entries. -/
def GoodStatusPayload (payload : JSON) : Prop :=
  ∃ fs, payload = JSON.obj fs ∧
    ∀ pv, lookupField fs kPlayers = some pv →
      ∃ gs, pv = JSON.obj gs ∧
        (∀ v, lookupField gs kList = some v → truthy v = true →
          ∃ xs, v = JSON.arr xs ∧ ∀ e ∈ xs, EntryOk kName e) ∧
        (∀ v, lookupField gs kUuid = some v → truthy v = true →
          ∃ xs, v = JSON.arr xs ∧ ∀ e ∈ xs, EntryOk kUuid e)

/-- Insert hyphens in the standard 8-4-4-4-12 grouping. -/
def hyphenate (s : Str) : Str :=
  s.take 8 ++ 45 :: (s.drop 8).take 4 ++ 45 :: (s.drop 12).take 4 ++
    45 :: (s.drop 16).take 4 ++ 45 :: s.drop 20

/-! ## Lemmas about `normalize_uuid` -/

theorem pyLowerCp_idem (c : Nat) : pyLowerCp (pyLowerCp c) = pyLowerCp c := by
  by_cases h : 65 ≤ c ∧ c ≤ 90
  · simp only [pyLowerCp, if_pos h]
    rw [if_neg (by omega)]
  · simp only [pyLowerCp, if_neg h]

theorem pyLowerCp_ne_dash {c : Nat} (h : c ≠ 45) : pyLowerCp c ≠ 45 := by
  unfold pyLowerCp
  split <;> omega

theorem normalize_uuid_append (a b : Str) :
    normalize_uuid (a ++ b) = normalize_uuid a ++ normalize_uuid b := by
  simp [normalize_uuid, pyLower, List.filter_append]

theorem normalize_uuid_dash_cons (b : Str) :
    normalize_uuid (45 :: b) = normalize_uuid b := by
  simp [normalize_uuid, pyLower, List.filter_cons]

theorem normalize_uuid_cons_ne {c : Nat} (cs : Str) (h : c ≠ 45) :
    normalize_uuid (c :: cs) = pyLowerCp c :: normalize_uuid cs := by
  unfold normalize_uuid pyLower
  rw [List.filter_cons, if_pos (by simpa [bne_iff_ne] using h)]
  rfl

theorem normalize_uuid_idem (s : Str) :
    normalize_uuid (normalize_uuid s) = normalize_uuid s := by
  induction s with
  | nil => rfl
  | cons c cs ih =>
    by_cases h : c = 45
    · subst h
      rw [normalize_uuid_dash_cons, ih]
    · rw [normalize_uuid_cons_ne cs h,
        normalize_uuid_cons_ne (normalize_uuid cs) (pyLowerCp_ne_dash h),
        pyLowerCp_idem, ih]

theorem normalize_uuid_hyphenate (s : Str) :
    normalize_uuid (hyphenate s) = normalize_uuid s := by
  have hd : ∀ (a b : Str),
      normalize_uuid (a ++ 45 :: b) = normalize_uuid a ++ normalize_uuid b := by
    intro a b
    rw [normalize_uuid_append, normalize_uuid_dash_cons]
  unfold hyphenate
  rw [hd, hd, hd, hd]
  rw [← normalize_uuid_append, ← List.take_add]
  norm_num
  try simp only [← List.append_assoc]
  rw [← normalize_uuid_append, ← List.take_add]
  norm_num
  try simp only [← List.append_assoc]
  rw [← normalize_uuid_append, ← List.take_add]
  norm_num
  rw [← normalize_uuid_append, List.take_append_drop]

/-- C9: `normalize_uuid` is idempotent, and the hyphenated (standard
8-4-4-4-12 grouping) and unhyphenated forms of an identifier normalize
to the same canonical value. -/
theorem C9_normalize_uuid_idempotent_hyphen_invariant (s : Str) :
    normalize_uuid (normalize_uuid s) = normalize_uuid s ∧
    normalize_uuid (hyphenate s) = normalize_uuid s :=
  ⟨normalize_uuid_idem s, normalize_uuid_hyphenate s⟩

/-! ## Lemmas about `UUID_REGEX` and the resolver -/

theorem uuid_newline_case (s : Str) :
    (match s.getLast? with
     | some c => if c = 10 then uuidCore s.dropLast else false
     | none => false) = true ↔
      ∃ core, s = core ++ [10] ∧ uuidCore core = true := by
  rcases List.eq_nil_or_concat s with rfl | ⟨l, a, rfl⟩
  · simp
  · rw [List.concat_eq_append, List.getLast?_concat, List.dropLast_concat]
    by_cases ha : a = 10
    · subst ha
      dsimp only
      rw [if_pos rfl]
      constructor
      · intro h
        exact ⟨l, rfl, h⟩
      · rintro ⟨core, heq, hc⟩
        have hl : l = core := by
          have h2 := congrArg List.dropLast heq
          simpa [List.dropLast_concat] using h2
        rwa [hl]
    · dsimp only
      rw [if_neg ha]
      constructor
      · intro h
        exact absurd h (by decide)
      · rintro ⟨core, heq, hc⟩
        have h2 := congrArg List.getLast? heq
        rw [List.getLast?_concat, List.getLast?_concat] at h2
        exact absurd (Option.some.inj h2) ha

theorem UUID_REGEX_match_iff (s : Str) :
    UUID_REGEX_match s = true ↔
      uuidCore s = true ∨ ∃ core, s = core ++ [10] ∧ uuidCore core = true := by
  unfold UUID_REGEX_match
  rw [Bool.or_eq_true]
  exact or_congr Iff.rfl (uuid_newline_case s)

theorem bind_eq_some_left {α β : Type} {o : Option α} {f : α → Option β} {v : β}
    (h : o.bind f = some v) : ∃ a, o = some a := by
  cases o with
  | none => simp at h
  | some a => exact ⟨a, rfl⟩

theorem matchHexRun_pos {n : Nat} {s r : Str} (hn : n ≠ 0)
    (h : matchHexRun n s = some r) :
    ∃ c rest, s = c :: rest ∧ isHexCp c = true := by
  cases n with
  | zero => exact absurd rfl hn
  | succ m =>
    cases s with
    | nil => simp [matchHexRun] at h
    | cons c rest =>
      by_cases hc : isHexCp c
      · exact ⟨c, rest, rfl, hc⟩
      · simp [matchHexRun, hc] at h

theorem uuidCore_has_hex {s : Str} (h : uuidCore s = true) :
    ∃ c ∈ s, isHexCp c = true := by
  unfold uuidCore hex32Branch hyphBranch at h
  rw [Bool.or_eq_true, decide_eq_true_eq, decide_eq_true_eq] at h
  rcases h with h | h
  · obtain ⟨c, rest, rfl, hc⟩ := matchHexRun_pos (by decide) h
    exact ⟨c, List.mem_cons_self c rest, hc⟩
  · obtain ⟨_, h⟩ := bind_eq_some_left h
    obtain ⟨_, h⟩ := bind_eq_some_left h
    obtain ⟨_, h⟩ := bind_eq_some_left h
    obtain ⟨_, h⟩ := bind_eq_some_left h
    obtain ⟨_, h⟩ := bind_eq_some_left h
    obtain ⟨_, h⟩ := bind_eq_some_left h
    obtain ⟨_, h⟩ := bind_eq_some_left h
    obtain ⟨_, h⟩ := bind_eq_some_left h
    obtain ⟨c, rest, rfl, hc⟩ := matchHexRun_pos (by decide) h
    exact ⟨c, List.mem_cons_self c rest, hc⟩

theorem UUID_REGEX_match_ne_nil {s : Str} (h : UUID_REGEX_match s = true) :
    s ≠ [] ∧ normalize_uuid s ≠ [] := by
  have hex : ∃ c ∈ s, c ≠ 45 := by
    rw [UUID_REGEX_match_iff] at h
    rcases h with h | ⟨core, rfl, hc⟩
    · obtain ⟨c, hm, hc⟩ := uuidCore_has_hex h
      refine ⟨c, hm, ?_⟩
      intro h45
      subst h45
      exact absurd hc (by decide)
    · exact ⟨10, by simp, by decide⟩
  obtain ⟨c, hm, hne⟩ := hex
  constructor
  · rintro rfl
    simp at hm
  · intro hnil
    unfold normalize_uuid pyLower at hnil
    rw [List.map_eq_nil_iff] at hnil
    have hmem : c ∈ s.filter (· != 45) :=
      List.mem_filter.mpr ⟨hm, by simpa [bne_iff_ne] using hne⟩
    rw [hnil] at hmem
    simp at hmem

/-- C4 (counterexample): 32 hex characters followed by a newline are not
of the claimed identifier shape, yet the command performs no directory
lookup for that input, because Python's `$` also matches just before a
trailing newline. -/
theorem C4_counterexample_trailing_newline :
    (procurar_resolve ⟨200, .null⟩ (List.replicate 32 97 ++ [10])).2 = 0 ∧
    uuidCore (List.replicate 32 97 ++ [10]) = false := by
  constructor
  · rfl
  · rfl

/-- C4 (amended): the lookup command treats the input as a direct
canonical identifier (performing no directory lookup) exactly when the
input — taken whole or after dropping a single trailing newline — is 32
hexadecimal characters, unhyphenated or hyphenated 8-4-4-4-12; for
every other input it performs exactly one directory lookup. -/
theorem C4_direct_identifier_iff (dirResp : HttpResponse) (jogador : Str) :
    ((procurar_resolve dirResp jogador).2 = 0 ↔
      (uuidCore jogador = true ∨
        ∃ core, jogador = core ++ [10] ∧ uuidCore core = true)) ∧
    ((procurar_resolve dirResp jogador).2 = 1 ↔
      ¬(uuidCore jogador = true ∨
        ∃ core, jogador = core ++ [10] ∧ uuidCore core = true)) := by
  rw [← UUID_REGEX_match_iff]
  unfold procurar_resolve
  by_cases h : UUID_REGEX_match jogador
  · rw [if_pos h]
    simp [h]
  · rw [if_neg h]
    cases hf : fetch_uuid_for_name dirResp with
    | error e => simpa using h
    | ok v => cases v <;> simpa using h

theorem check_server_uuid_norm (probe : ServerTarget → Option JSON)
    (pn : Str) (t : ServerTarget) {u u' : Str}
    (hu : u ≠ []) (hu' : u' ≠ []) (hn : normalize_uuid u = normalize_uuid u') :
    check_server probe pn (.str u) t = check_server probe pn (.str u') t := by
  unfold check_server
  cases probe t with
  | none => rfl
  | some payload =>
    try dsimp only
    cases dict_get payload kOnline .null with
    | error e => rfl
    | ok online =>
      try dsimp only
      by_cases hon : truthy online
      · rw [if_pos hon, if_pos hon]
        cases extract_players payload with
        | error e => rfl
        | ok nu =>
          obtain ⟨names, uuids⟩ := nu
          try dsimp only
          cases pyStrSet pyLower names with
          | error e => rfl
          | ok lnames =>
            try dsimp only
            by_cases hmem : pyLower pn ∈ lnames
            · rw [if_pos hmem, if_pos hmem]
            · rw [if_neg hmem, if_neg hmem]
              have htu : truthy (JSON.str u) = true := by
                simpa [truthy, List.isEmpty_iff] using hu
              have htu' : truthy (JSON.str u') = true := by
                simpa [truthy, List.isEmpty_iff] using hu'
              rw [if_pos htu, if_pos htu']
              try dsimp only
              cases pyStrSet normalize_uuid uuids with
              | error e => rfl
              | ok nuuids =>
                try dsimp only
                rw [hn]
      · rw [if_neg hon, if_neg hon]

theorem find_player_servers_uuid_norm (probe : ServerTarget → Option JSON)
    (targets : List ServerTarget) (pn : Str) {u u' : Str}
    (hu : u ≠ []) (hu' : u' ≠ []) (hn : normalize_uuid u = normalize_uuid u') :
    find_player_servers probe targets pn (.str u) =
      find_player_servers probe targets pn (.str u') := by
  induction targets with
  | nil => rfl
  | cons t ts ih =>
    unfold find_player_servers
    rw [check_server_uuid_norm probe pn t hu hu' hn, ih]

/-- C5 (counterexample): for the all-uppercase 32-hex input the resolver
stores the raw input as the canonical identifier, which differs from its
normalized (lowercased) form — normalization is not applied at
resolution time. -/
theorem C5_counterexample_raw_uuid_kept :
    (procurar_resolve ⟨200, .null⟩ (List.replicate 32 65)).1 =
      .ok (some (List.replicate 32 65, .str (List.replicate 32 65))) ∧
    normalize_uuid (List.replicate 32 65) ≠ List.replicate 32 65 := by
  constructor
  · rfl
  · decide

/-- C5 (amended): for identifier-shaped input the resolver keeps the
display name and the canonical identifier both equal to the raw input;
since `check_server` normalizes both sides at match time, the lookup's
result is identical to what it would be with the normalized
(lowercased, hyphen-stripped) identifier stored instead. -/
theorem C5_resolver_keeps_raw_uuid_matches_normalized
    (dirResp : HttpResponse) (j : Str) (h : UUID_REGEX_match j = true) :
    (procurar_resolve dirResp j).1 = .ok (some (j, .str j)) ∧
    ∀ (probe : ServerTarget → Option JSON) (targets : List ServerTarget),
      find_player_servers probe targets j (.str j) =
        find_player_servers probe targets j (.str (normalize_uuid j)) := by
  obtain ⟨hnil, hnnil⟩ := UUID_REGEX_match_ne_nil h
  constructor
  · unfold procurar_resolve
    rw [if_pos h]
  · intro probe targets
    exact find_player_servers_uuid_norm probe targets j hnil hnnil
      (normalize_uuid_idem j).symm

/-- C5 (witness for the amended theorem): concrete uppercase 32-hex
input. -/
theorem C5_witness :
    (procurar_resolve ⟨200, .null⟩ (List.replicate 32 66)).1 =
      .ok (some (List.replicate 32 66, .str (List.replicate 32 66))) ∧
    find_player_servers (fun _ => none) [⟨.str (strLit "A"), .str (strLit "a")⟩]
        (List.replicate 32 66) (.str (List.replicate 32 66)) =
      find_player_servers (fun _ => none) [⟨.str (strLit "A"), .str (strLit "a")⟩]
        (List.replicate 32 66) (.str (normalize_uuid (List.replicate 32 66))) := by
  have h := C5_resolver_keeps_raw_uuid_matches_normalized ⟨200, .null⟩
    (List.replicate 32 66) (by decide)
  exact ⟨h.1, h.2 (fun _ => none) [⟨.str (strLit "A"), .str (strLit "a")⟩]⟩

/-! ## Lemmas about `check_server` and `find_player_servers` -/

theorem pyStrSet_mem {f : Str → Str} {items : List JSON} {out : List Str}
    (h : pyStrSet f items = .ok out) :
    ∀ x, x ∈ out ↔ ∃ s, JSON.str s ∈ items ∧ f s = x := by
  induction items generalizing out with
  | nil =>
    intro x
    simp only [pyStrSet] at h
    injection h with h2
    subst h2
    simp
  | cons e rest ih =>
    intro x
    cases e with
    | str s =>
      simp only [pyStrSet] at h
      cases hr : pyStrSet f rest with
      | error e2 =>
        rw [hr] at h
        simp at h
      | ok out2 =>
        rw [hr] at h
        try dsimp only at h
        injection h with h2
        subst h2
        simp only [List.mem_cons]
        constructor
        · rintro (rfl | hx)
          · exact ⟨s, Or.inl rfl, rfl⟩
          · obtain ⟨s2, hs2, hf2⟩ := ((ih hr) x).mp hx
            exact ⟨s2, Or.inr hs2, hf2⟩
        · rintro ⟨s2, hs2 | hs2, hf2⟩
          · injection hs2 with h3
            subst h3
            exact Or.inl hf2.symm
          · exact Or.inr (((ih hr) x).mpr ⟨s2, hs2, hf2⟩)
    | null => simp [pyStrSet] at h
    | bool b => simp [pyStrSet] at h
    | num n => simp [pyStrSet] at h
    | arr xs => simp [pyStrSet] at h
    | obj fs => simp [pyStrSet] at h

theorem find_player_servers_check_ok {probe : ServerTarget → Option JSON}
    {pn : Str} {pu : JSON} {targets : List ServerTarget}
    {res : List ServerTarget}
    (h : find_player_servers probe targets pn pu = .ok res) :
    ∀ t ∈ targets, ∃ b, check_server probe pn pu t = .ok b := by
  induction targets generalizing res with
  | nil =>
    intro t ht
    simp at ht
  | cons a ts ih =>
    intro t ht
    simp only [find_player_servers] at h
    cases hc : check_server probe pn pu a with
    | error e =>
      rw [hc] at h
      simp at h
    | ok b =>
      rw [hc] at h
      try dsimp only at h
      cases hf : find_player_servers probe ts pn pu with
      | error e =>
        rw [hf] at h
        simp at h
      | ok rest =>
        rcases List.mem_cons.mp ht with rfl | ht2
        · exact ⟨b, hc⟩
        · exact ih hf t ht2

theorem find_player_servers_mem_iff {probe : ServerTarget → Option JSON}
    {pn : Str} {pu : JSON} {targets : List ServerTarget}
    {res : List ServerTarget}
    (h : find_player_servers probe targets pn pu = .ok res) :
    ∀ t, t ∈ res ↔ t ∈ targets ∧ check_server probe pn pu t = .ok true := by
  induction targets generalizing res with
  | nil =>
    intro t
    simp only [find_player_servers] at h
    injection h with h2
    subst h2
    simp
  | cons a ts ih =>
    intro t
    simp only [find_player_servers] at h
    cases hc : check_server probe pn pu a with
    | error e =>
      rw [hc] at h
      simp at h
    | ok b =>
      rw [hc] at h
      try dsimp only at h
      cases hf : find_player_servers probe ts pn pu with
      | error e =>
        rw [hf] at h
        simp at h
      | ok rest =>
        rw [hf] at h
        try dsimp only at h
        injection h with h2
        subst h2
        have hrest := ih hf
        cases b with
        | true =>
          rw [if_pos rfl, List.mem_cons]
          constructor
          · rintro (rfl | hx)
            · exact ⟨List.mem_cons_self t ts, hc⟩
            · obtain ⟨hm, hb⟩ := (hrest t).mp hx
              exact ⟨List.mem_cons_of_mem a hm, hb⟩
          · rintro ⟨hm, hb⟩
            rcases List.mem_cons.mp hm with rfl | hm2
            · exact Or.inl rfl
            · exact Or.inr ((hrest t).mpr ⟨hm2, hb⟩)
        | false =>
          rw [if_neg (by simp)]
          constructor
          · intro hx
            obtain ⟨hm, hb⟩ := (hrest t).mp hx
            exact ⟨List.mem_cons_of_mem a hm, hb⟩
          · rintro ⟨hm, hb⟩
            rcases List.mem_cons.mp hm with rfl | hm2
            · have hcontra := hc.symm.trans hb
              simp at hcontra
            · exact (hrest t).mpr ⟨hm2, hb⟩

theorem truthy_str_iff (s : Str) : truthy (JSON.str s) = true ↔ s ≠ [] := by
  simp [truthy, List.isEmpty_iff]

theorem check_server_true_iff {probe : ServerTarget → Option JSON} {pn : Str}
    {pu : JSON} {t : ServerTarget} {payload : JSON} {b : Bool}
    (hp : probe t = some payload)
    (hb : check_server probe pn pu t = .ok b) :
    b = true ↔ MatchSpec pn pu payload := by
  unfold check_server at hb
  rw [hp] at hb
  try dsimp only at hb
  cases hon : dict_get payload kOnline .null with
  | error e =>
    rw [hon] at hb
    simp at hb
  | ok online =>
    rw [hon] at hb
    try dsimp only at hb
    by_cases htr : truthy online
    case neg =>
      rw [if_neg htr] at hb
      injection hb with h2
      subst h2
      refine iff_of_false (by simp) ?_
      rintro ⟨⟨ov, hov, hovt⟩, _⟩
      rw [hon] at hov
      injection hov with h3
      subst h3
      exact htr hovt
    case pos =>
      rw [if_pos htr] at hb
      cases hex : extract_players payload with
      | error e =>
        rw [hex] at hb
        simp at hb
      | ok nu =>
        obtain ⟨ns, us⟩ := nu
        rw [hex] at hb
        try dsimp only at hb
        cases hln : pyStrSet pyLower ns with
        | error e =>
          rw [hln] at hb
          simp at hb
        | ok lns =>
          rw [hln] at hb
          try dsimp only at hb
          by_cases hmem : pyLower pn ∈ lns
          · rw [if_pos hmem] at hb
            injection hb with h2
            subst h2
            refine iff_of_true rfl ⟨⟨online, hon, htr⟩, ns, us, hex, Or.inl ?_⟩
            exact (pyStrSet_mem hln (pyLower pn)).mp hmem
          · rw [if_neg hmem] at hb
            by_cases hpu : truthy pu
            case neg =>
              rw [if_neg hpu] at hb
              injection hb with h2
              subst h2
              refine iff_of_false (by simp) ?_
              rintro ⟨_, ns2, us2, hex2, hcase⟩
              rw [hex] at hex2
              injection hex2 with h3
              injection h3 with h4 h5
              subst h4
              subst h5
              rcases hcase with ⟨s, hsm, hfs⟩ | ⟨s, rfl, hsne, _⟩
              · exact hmem ((pyStrSet_mem hln (pyLower pn)).mpr ⟨s, hsm, hfs⟩)
              · exact hpu ((truthy_str_iff s).mpr hsne)
            case pos =>
              rw [if_pos hpu] at hb
              cases pu with
              | str s =>
                try dsimp only at hb
                cases hnu : pyStrSet normalize_uuid us with
                | error e =>
                  rw [hnu] at hb
                  simp at hb
                | ok nus =>
                  rw [hnu] at hb
                  injection hb with h2
                  subst h2
                  rw [decide_eq_true_eq]
                  constructor
                  · intro hm2
                    obtain ⟨u2, hum, hf2⟩ :=
                      (pyStrSet_mem hnu (normalize_uuid s)).mp hm2
                    exact ⟨⟨online, hon, htr⟩, ns, us, hex,
                      Or.inr ⟨s, rfl, (truthy_str_iff s).mp hpu, u2, hum, hf2⟩⟩
                  · rintro ⟨_, ns2, us2, hex2, hcase⟩
                    rw [hex] at hex2
                    injection hex2 with h3
                    injection h3 with h4 h5
                    subst h4
                    subst h5
                    rcases hcase with ⟨s2, hsm, hfs⟩ | ⟨s2, hs2, hsne, u2, hum, hf2⟩
                    · exact absurd
                        ((pyStrSet_mem hln (pyLower pn)).mpr ⟨s2, hsm, hfs⟩) hmem
                    · injection hs2 with h4
                      subst h4
                      exact (pyStrSet_mem hnu (normalize_uuid s)).mpr ⟨u2, hum, hf2⟩
              | null => simp at hb
              | bool b2 => simp at hb
              | num n => simp at hb
              | arr xs => simp at hb
              | obj fs => simp at hb

/-- C1: for a target whose probe succeeds with some payload, the target
is in the result of `find_player_servers` if and only if the payload's
`online` flag is truthy and either (a) the lowercased player name equals
some lowercased extracted name entry, or (b) the canonical identifier is
a non-empty string that, after stripping hyphens and lowercasing both
sides, equals some extracted identifier entry; in particular an offline
payload never contributes a match. -/
theorem C1_match_set_membership (probe : ServerTarget → Option JSON)
    (pn : Str) (pu : JSON) (targets : List ServerTarget) (t : ServerTarget)
    (payload : JSON) (res : List ServerTarget)
    (hp : probe t = some payload) (ht : t ∈ targets)
    (hres : find_player_servers probe targets pn pu = .ok res) :
    t ∈ res ↔ MatchSpec pn pu payload := by
  obtain ⟨b, hb⟩ := find_player_servers_check_ok hres t ht
  rw [find_player_servers_mem_iff hres t, ← check_server_true_iff hp hb]
  constructor
  · rintro ⟨_, hb2⟩
    rw [hb] at hb2
    injection hb2
  · intro hbtrue
    subst hbtrue
    exact ⟨ht, hb⟩

/-- C1 (witness): one server, online, with `Steve` on the roster;
the target player `steve` matches by name. -/
theorem C1_witness :
    ServerTarget.mk (.str (strLit "A")) (.str (strLit "a")) ∈
        [ServerTarget.mk (.str (strLit "A")) (.str (strLit "a"))] ↔
      MatchSpec (strLit "steve") .null
        (JSON.obj [(kOnline, .bool true),
          (kPlayers, .obj [(kList, .arr [.str (strLit "Steve")])])]) :=
  C1_match_set_membership (fun _ => some (JSON.obj [(kOnline, .bool true),
      (kPlayers, .obj [(kList, .arr [.str (strLit "Steve")])])]))
    (strLit "steve") .null
    [ServerTarget.mk (.str (strLit "A")) (.str (strLit "a"))]
    (ServerTarget.mk (.str (strLit "A")) (.str (strLit "a")))
    (JSON.obj [(kOnline, .bool true),
      (kPlayers, .obj [(kList, .arr [.str (strLit "Steve")])])])
    [ServerTarget.mk (.str (strLit "A")) (.str (strLit "a"))]
    rfl (List.mem_cons_self _ _) rfl

theorem check_server_probe_fail {probe : ServerTarget → Option JSON}
    {pn : Str} {pu : JSON} {t : ServerTarget} (h : probe t = none) :
    check_server probe pn pu t = .ok false := by
  unfold check_server
  rw [h]

/-- C2: a failing probe (network error or timeout) leaves the failing
server out of the match set, lets `find_player_servers` behave exactly
as if that server had not been probed at all, and never puts the failed
server in a returned result. -/
theorem C2_probe_failure_isolated (probe : ServerTarget → Option JSON)
    (pn : Str) (pu : JSON) (t : ServerTarget) (l1 l2 : List ServerTarget)
    (hfail : probe t = none) :
    find_player_servers probe (l1 ++ t :: l2) pn pu =
      find_player_servers probe (l1 ++ l2) pn pu ∧
    ∀ res, find_player_servers probe (l1 ++ t :: l2) pn pu = .ok res →
      t ∉ res := by
  have heq : ∀ m1 : List ServerTarget,
      find_player_servers probe (m1 ++ t :: l2) pn pu =
        find_player_servers probe (m1 ++ l2) pn pu := by
    intro m1
    induction m1 with
    | nil =>
      simp only [List.nil_append]
      rw [show find_player_servers probe (t :: l2) pn pu =
          (match check_server probe pn pu t with
           | .error e => .error e
           | .ok b =>
             match find_player_servers probe l2 pn pu with
             | .error e => .error e
             | .ok rest => .ok (if b then t :: rest else rest)) from rfl]
      rw [check_server_probe_fail hfail]
      cases hf : find_player_servers probe l2 pn pu with
      | error e => rfl
      | ok rest => simp
    | cons a m1' ih =>
      simp only [List.cons_append, find_player_servers, List.append_eq]
      rw [ih]
  refine ⟨heq l1, ?_⟩
  intro res hres ht
  have hb := ((find_player_servers_mem_iff hres t).mp ht).2
  have hcontra := (check_server_probe_fail hfail).symm.trans hb
  simp at hcontra

/-- C2 (witness): a single always-failing probe. -/
theorem C2_witness :
    find_player_servers (fun _ => none)
        ([] ++ ServerTarget.mk (.str (strLit "B")) (.str (strLit "b")) :: [])
        (strLit "steve") .null =
      find_player_servers (fun _ => none) ([] ++ []) (strLit "steve") .null ∧
    ServerTarget.mk (.str (strLit "B")) (.str (strLit "b")) ∉
      ([] : List ServerTarget) := by
  have h := C2_probe_failure_isolated (fun _ => none) (strLit "steve") .null
    (ServerTarget.mk (.str (strLit "B")) (.str (strLit "b"))) [] [] rfl
  exact ⟨h.1, h.2 [] rfl⟩

/-! ## Lemmas about the fan-out transition system -/

theorem countP_set_get {l : List ProbePhase} {i : Nat} {a : ProbePhase}
    (h : l.get? i = some a) (b : ProbePhase) (p : ProbePhase → Bool) :
    (l.set i b).countP p + (if p a then 1 else 0) =
      l.countP p + (if p b then 1 else 0) := by
  induction l generalizing i with
  | nil => simp at h
  | cons x xs ih =>
    cases i with
    | zero =>
      simp only [List.get?_cons_zero, Option.some.injEq] at h
      subst h
      simp only [List.set_cons_zero, List.countP_cons]
      by_cases hpx : p x <;> by_cases hpb : p b <;> simp [hpx, hpb]
    | succ j =>
      simp only [List.get?_cons_succ] at h
      have h2 := ih h
      simp only [List.set_cons_succ, List.countP_cons]
      by_cases hpx : p x <;> simp [hpx] <;> omega

theorem coordInvariant {maxc : Nat} {init s : CoordState}
    (hinit : runningCount init ≤ maxc ∧ (init.returned = true → allDone init))
    (h : CoordReach maxc init s) :
    runningCount s ≤ maxc ∧ (s.returned = true → allDone s) := by
  induction h with
  | refl => exact hinit
  | step hr hstep ih =>
    cases hstep with
    | acquire i hget hlt hret =>
      constructor
      · have hc := countP_set_get hget .running
          (fun p => decide (p = ProbePhase.running))
        simp only [runningCount] at *
        simp at hc
        omega
      · intro hrret
        exact absurd hrret (by simp)
    | finish i hget hret =>
      constructor
      · have hc := countP_set_get hget .done
          (fun p => decide (p = ProbePhase.running))
        simp only [runningCount] at *
        simp at hc
        omega
      · intro hrret
        exact absurd hrret (by simp)
    | ret hret hdone =>
      exact ⟨ih.1, fun _ => hdone⟩

/-- C3: in the semaphore/gather transition system, for every
`max_concurrency ≥ 1` and every target list, every reachable state has
at most `max_concurrency` probes in flight, and the coordinator can
only have returned once every probe task is done. -/
theorem C3_concurrency_ceiling (maxc : Nat) (targets : List ServerTarget)
    (s : CoordState) (hmaxc : 1 ≤ maxc)
    (h : CoordReach maxc (initFanOut targets) s) :
    runningCount s ≤ maxc ∧ (s.returned = true → allDone s) := by
  apply coordInvariant ?_ h
  constructor
  · have hz : runningCount (initFanOut targets) = 0 := by
      simp [runningCount, initFanOut, List.countP_map]
    omega
  · intro hr
    simp [initFanOut] at hr

/-- C3 (witness): the initial state for one target under ceiling 1. -/
theorem C3_witness :
    runningCount (initFanOut
        [ServerTarget.mk (.str (strLit "A")) (.str (strLit "a"))]) ≤ 1 ∧
    ((initFanOut [ServerTarget.mk (.str (strLit "A")) (.str (strLit "a"))]).returned
        = true →
      allDone (initFanOut
        [ServerTarget.mk (.str (strLit "A")) (.str (strLit "a"))])) :=
  C3_concurrency_ceiling 1
    [ServerTarget.mk (.str (strLit "A")) (.str (strLit "a"))] _ (by decide)
    CoordReach.refl

/-! ## Lemmas about `extract_players` -/

theorem collectNames_strings {xs : List JSON} (h : ∀ e ∈ xs, EntryOk kName e) :
    ∀ x ∈ collectNames xs, ∃ s, x = JSON.str s := by
  induction xs with
  | nil => simp [collectNames]
  | cons e rest ih =>
    intro x hx
    have hrest : ∀ e2 ∈ rest, EntryOk kName e2 :=
      fun e2 he2 => h e2 (List.mem_cons_of_mem e he2)
    cases e with
    | obj gs =>
      have he := h (.obj gs) (List.mem_cons_self _ _)
      simp only [EntryOk] at he
      simp only [collectNames] at hx
      by_cases ht : truthy ((lookupField gs kName).getD .null)
      · rw [if_pos ht] at hx
        rcases List.mem_cons.mp hx with rfl | hx2
        · cases hlk : lookupField gs kName with
          | none =>
            rw [hlk] at ht
            simp [truthy] at ht
          | some v =>
            rw [hlk] at ht
            simp only [Option.getD_some] at ht
            simpa using he v hlk ht
        · exact ih hrest x hx2
      · rw [if_neg ht] at hx
        exact ih hrest x hx
    | str s =>
      simp only [collectNames] at hx
      rcases List.mem_cons.mp hx with rfl | hx2
      · exact ⟨s, rfl⟩
      · exact ih hrest x hx2
    | null =>
      simp only [collectNames] at hx
      exact ih hrest x hx
    | bool b =>
      simp only [collectNames] at hx
      exact ih hrest x hx
    | num n =>
      simp only [collectNames] at hx
      exact ih hrest x hx
    | arr ys =>
      simp only [collectNames] at hx
      exact ih hrest x hx

theorem collectUuids_strings {xs : List JSON} (h : ∀ e ∈ xs, EntryOk kUuid e) :
    ∀ x ∈ collectUuids xs, ∃ s, x = JSON.str s := by
  induction xs with
  | nil => simp [collectUuids]
  | cons e rest ih =>
    intro x hx
    have hrest : ∀ e2 ∈ rest, EntryOk kUuid e2 :=
      fun e2 he2 => h e2 (List.mem_cons_of_mem e he2)
    cases e with
    | obj gs =>
      have he := h (.obj gs) (List.mem_cons_self _ _)
      simp only [EntryOk] at he
      simp only [collectUuids] at hx
      by_cases ht : truthy (pyOr ((lookupField gs kUuid).getD .null) (.str []))
      · rw [if_pos ht] at hx
        rcases List.mem_cons.mp hx with rfl | hx2
        · cases hlk : lookupField gs kUuid with
          | none =>
            rw [hlk] at ht
            simp [pyOr, truthy] at ht
          | some v =>
            rw [hlk] at ht
            simp only [Option.getD_some] at ht
            by_cases htv : truthy v
            · simp only [Option.getD_some, pyOr, if_pos htv]
              exact he v hlk htv
            · rw [pyOr, if_neg htv] at ht
              simp [truthy] at ht
        · exact ih hrest x hx2
      · rw [if_neg ht] at hx
        exact ih hrest x hx
    | str s =>
      simp only [collectUuids] at hx
      rcases List.mem_cons.mp hx with rfl | hx2
      · exact ⟨s, rfl⟩
      · exact ih hrest x hx2
    | null =>
      simp only [collectUuids] at hx
      exact ih hrest x hx
    | bool b =>
      simp only [collectUuids] at hx
      exact ih hrest x hx
    | num n =>
      simp only [collectUuids] at hx
      exact ih hrest x hx
    | arr ys =>
      simp only [collectUuids] at hx
      exact ih hrest x hx

theorem field_items_ok {gs : List (Str × JSON)} {key entryKey : Str} {d : JSON}
    (hd : truthy d = false)
    (hfield : ∀ v, lookupField gs key = some v → truthy v = true →
      ∃ xs, v = JSON.arr xs ∧ ∀ e ∈ xs, EntryOk entryKey e) :
    ∃ xs, pyIter (pyOr ((lookupField gs key).getD d) (.arr [])) = .ok xs ∧
      ∀ e ∈ xs, EntryOk entryKey e := by
  cases hlk : lookupField gs key with
  | none =>
    refine ⟨[], ?_, by simp⟩
    simp [pyOr, hd, pyIter]
  | some v =>
    by_cases htv : truthy v
    · obtain ⟨xs, rfl, hxs⟩ := hfield v hlk htv
      refine ⟨xs, ?_, hxs⟩
      simp [pyOr, htv, pyIter]
    · refine ⟨[], ?_, by simp⟩
      simp [pyOr, htv, pyIter]

/-- C6 (counterexample): a JSON object payload whose `players` field is
the number 5 makes `extract_players` raise `AttributeError`
(`players.get("list")` on a non-dict), so extraction can fail. -/
theorem C6_counterexample_players_not_dict :
    extract_players (JSON.obj [(kPlayers, JSON.num 5)]) =
      .error .attributeError := rfl

/-- C6 (amended): `extract_players` never fails and returns a pair of
string lists for every JSON object payload whose `players` field, when
present, is an object whose truthy `list`/`uuid` fields are arrays of
entries that are bare strings, objects whose `name`/`uuid` key holds a
string when truthy, or values of other types (skipped); it yields empty
lists when the `players` object is missing.  When `players` holds a
non-object (for example a number), extraction raises instead. -/
theorem C6_extract_players_tolerant (fs : List (Str × JSON))
    (hg : GoodStatusPayload (JSON.obj fs)) :
    (∃ ns us, extract_players (JSON.obj fs) = .ok (ns, us) ∧
      (∀ x ∈ ns, ∃ s, x = JSON.str s) ∧ (∀ x ∈ us, ∃ s, x = JSON.str s)) ∧
    (lookupField fs kPlayers = none →
      extract_players (JSON.obj fs) = .ok ([], [])) := by
  constructor
  · obtain ⟨fs2, heq, hply⟩ := hg
    injection heq with heq2
    subst heq2
    have hplayers : ∃ gs,
        dict_get (JSON.obj fs) kPlayers (.obj []) = .ok (.obj gs) ∧
        (∀ v, lookupField gs kList = some v → truthy v = true →
          ∃ xs, v = JSON.arr xs ∧ ∀ e ∈ xs, EntryOk kName e) ∧
        (∀ v, lookupField gs kUuid = some v → truthy v = true →
          ∃ xs, v = JSON.arr xs ∧ ∀ e ∈ xs, EntryOk kUuid e) := by
      cases hpf : lookupField fs kPlayers with
      | none =>
        refine ⟨[], by simp [dict_get, hpf], ?_, ?_⟩ <;>
          intro v hv <;> simp [lookupField] at hv
      | some pv =>
        obtain ⟨gs, rfl, h1, h2⟩ := hply pv hpf
        exact ⟨gs, by simp [dict_get, hpf], h1, h2⟩
    obtain ⟨gs, hg1, h1, h2⟩ := hplayers
    obtain ⟨lxs, hli, hlok⟩ := field_items_ok (d := JSON.null) rfl h1
    obtain ⟨uxs, hui, huok⟩ := field_items_ok (d := JSON.arr []) rfl h2
    refine ⟨collectNames lxs, collectUuids uxs, ?_,
      collectNames_strings hlok, collectUuids_strings huok⟩
    unfold extract_players
    rw [hg1]
    dsimp only [dict_get]
    rw [hli, hui]
  · intro hpf
    simp [extract_players, dict_get, hpf, pyOr, truthy, pyIter,
      lookupField, collectNames, collectUuids]

/-- C6 (witness for the amended theorem): the empty object payload. -/
theorem C6_witness :
    (∃ ns us, extract_players (JSON.obj []) = .ok (ns, us) ∧
      (∀ x ∈ ns, ∃ s, x = JSON.str s) ∧ (∀ x ∈ us, ∃ s, x = JSON.str s)) ∧
    (lookupField ([] : List (Str × JSON)) kPlayers = none →
      extract_players (JSON.obj []) = .ok ([], [])) :=
  C6_extract_players_tolerant []
    ⟨[], rfl, fun _ h => Option.noConfusion h⟩

/-! ## Lemmas about `load_config` and `procurar` -/

/-- C7: whenever `load_config` succeeds, the resulting `max_concurrency`
is at least 1; a missing field yields the default 8, and a supplied
value that is below 1 or not an integer is replaced by 1 (a Python
boolean is an integer whose coerced value is 1). -/
theorem C7_max_concurrency_ge_one (raw : JSON) (cfg : BotConfig)
    (h : load_config raw = .ok cfg) :
    1 ≤ cfg.max_concurrency ∧
    (∀ fs, raw = JSON.obj fs → lookupField fs kMaxConcurrency = none →
      cfg.max_concurrency = 8) ∧
    (∀ fs n, raw = JSON.obj fs →
      lookupField fs kMaxConcurrency = some (.num n) → n < 1 →
      cfg.max_concurrency = 1) ∧
    (∀ fs v, raw = JSON.obj fs → lookupField fs kMaxConcurrency = some v →
      (∀ n, v ≠ JSON.num n) → cfg.max_concurrency = 1) := by
  cases raw with
  | obj fs =>
    simp only [load_config, dict_get] at h
    cases hit : pyIter ((lookupField fs kServers).getD (.arr [])) with
    | error e =>
      rw [hit] at h
      simp at h
    | ok sitems =>
      rw [hit] at h
      try dsimp only at h
      by_cases htok : truthy ((lookupField fs kDiscordToken).getD .null)
      · rw [if_pos htok] at h
        try dsimp only at h
        injection h with h2
        subst h2
        refine ⟨?_, ?_, ?_, ?_⟩
        · cases hmc : (lookupField fs kMaxConcurrency).getD (.num 8) with
          | num n =>
            dsimp only
            split <;> omega
          | null => exact le_refl 1
          | bool b => exact le_refl 1
          | str s => exact le_refl 1
          | arr xs => exact le_refl 1
          | obj gs => exact le_refl 1
        · intro fs2 hfs hnone
          injection hfs with hfs2
          subst hfs2
          simp [hnone]
        · intro fs2 n hfs hsome hlt
          injection hfs with hfs2
          subst hfs2
          simp [hsome, if_pos hlt]
        · intro fs2 v hfs hsome hnn
          injection hfs with hfs2
          subst hfs2
          rw [hsome]
          cases v with
          | num n => exact absurd rfl (hnn n)
          | null => rfl
          | bool b => rfl
          | str s => rfl
          | arr xs => rfl
          | obj gs => rfl
      · rw [if_neg htok] at h
        simp at h
  | null => simp [load_config, dict_get] at h
  | bool b => simp [load_config, dict_get] at h
  | num n => simp [load_config, dict_get] at h
  | str s => simp [load_config, dict_get] at h
  | arr xs => simp [load_config, dict_get] at h

/-- C7 (witness): minimal config with only the token. -/
theorem C7_witness :
    1 ≤ (BotConfig.mk (JSON.str (strLit "t")) [] (JSON.num 10) 8).max_concurrency :=
  (C7_max_concurrency_ge_one
    (JSON.obj [(kDiscordToken, JSON.str (strLit "t"))]) _ rfl).1

/-- C8 (counterexample): a config supplying `request_timeout_seconds: 0`
loads successfully and the stored value is 0, which is not ≥ 1 — no
validation is applied to this field. -/
theorem C8_counterexample_zero_timeout :
    load_config (JSON.obj [(kDiscordToken, JSON.str (strLit "t")),
        (kRequestTimeout, JSON.num 0)]) =
      .ok ⟨JSON.str (strLit "t"), [], JSON.num 0, 8⟩ ∧
    ∀ n : Int, JSON.num (0 : Int) = JSON.num n → n < 1 := by
  constructor
  · rfl
  · intro n hn
    injection hn with h2
    omega

/-- C8 (amended): whenever `load_config` succeeds,
`request_timeout_seconds` is the raw supplied value, stored without any
integer or ≥ 1 validation, defaulting to 10 only when the field is
absent. -/
theorem C8_request_timeout_unvalidated (raw : JSON) (fs : List (Str × JSON))
    (cfg : BotConfig) (hraw : raw = JSON.obj fs)
    (h : load_config raw = .ok cfg) :
    cfg.request_timeout_seconds =
      (lookupField fs kRequestTimeout).getD (JSON.num 10) := by
  subst hraw
  simp only [load_config, dict_get] at h
  cases hit : pyIter ((lookupField fs kServers).getD (.arr [])) with
  | error e =>
    rw [hit] at h
    simp at h
  | ok sitems =>
    rw [hit] at h
    try dsimp only at h
    by_cases htok : truthy ((lookupField fs kDiscordToken).getD .null)
    · rw [if_pos htok] at h
      try dsimp only at h
      injection h with h2
      subst h2
      rfl
    · rw [if_neg htok] at h
      simp at h

/-- C8 (witness for the amended theorem): token-only config defaults the
timeout to 10. -/
theorem C8_witness :
    (BotConfig.mk (JSON.str (strLit "t")) [] (JSON.num 10) 8).request_timeout_seconds =
      (lookupField [(kDiscordToken, JSON.str (strLit "t"))]
        kRequestTimeout).getD (JSON.num 10) :=
  C8_request_timeout_unvalidated
    (JSON.obj [(kDiscordToken, JSON.str (strLit "t"))]) _ _ rfl rfl

/-- C10: `fetch_uuid_for_name` returns `None` both on HTTP 204 and on a
2xx JSON object body lacking the `id` field, and in both cases the
command reports the player as not found, independently of the probe
oracle — so no probes are issued and the two cases are
indistinguishable. -/
theorem C10_not_found_on_204_or_missing_id (servers : List ServerTarget)
    (r : HttpResponse) (jogador : Str)
    (hs : servers ≠ []) (hshape : UUID_REGEX_match jogador = false)
    (hcase : r.status = 204 ∨
      (200 ≤ r.status ∧ r.status < 300 ∧
        ∃ fs, r.body = JSON.obj fs ∧ lookupField fs kId = none)) :
    fetch_uuid_for_name r = .ok .null ∧
    ∀ probe, procurar_core servers r probe jogador = .ok .notFound := by
  have hfetch : fetch_uuid_for_name r = .ok .null := by
    rcases hcase with h204 | ⟨hlo, hhi, fs, hbody, hid⟩
    · simp [fetch_uuid_for_name, h204]
    · unfold fetch_uuid_for_name
      by_cases h204 : r.status = 204
      · rw [if_pos h204]
      · rw [if_neg h204]
        unfold raise_for_status
        rw [if_neg (by omega)]
        try dsimp only
        rw [hbody]
        simp [dict_get, hid]
  refine ⟨hfetch, ?_⟩
  intro probe
  unfold procurar_core
  rw [if_neg (by simpa [List.isEmpty_iff] using hs)]
  unfold procurar_resolve
  rw [if_neg (by simp [hshape]), hfetch]

/-- C10 (witness): 204 from the directory, one configured server, an
always-failing probe oracle. -/
theorem C10_witness :
    fetch_uuid_for_name ⟨204, .null⟩ = .ok .null ∧
    procurar_core [ServerTarget.mk (.str (strLit "A")) (.str (strLit "a"))]
        ⟨204, .null⟩ (fun _ => none) (strLit "Steve") = .ok .notFound := by
  have h := C10_not_found_on_204_or_missing_id
    [ServerTarget.mk (.str (strLit "A")) (.str (strLit "a"))] ⟨204, .null⟩
    (strLit "Steve") (List.cons_ne_nil _ _) (by decide) (Or.inl rfl)
  exact ⟨h.1, h.2 (fun _ => none)⟩
